import Mathlib

/-!
Verification development for the FAUbot ticket bot (src/ticketbot.py).

The embedding models the TicketBot class's command grammar, ceremony-date
resolution, queued batch writes and the matching/notification pipeline as
executable Lean functions.  External collaborators are modelled as data:

* the dateutil date parser is a parameter `parse : String → Option PyDateTime`
  (returning `none` where dateutil raises ValueError); a small concrete table
  `dateutilParse` models its behaviour on the strings used in examples;
* the Mongo users collection is a `List UserRecord`; document `_id` identity
  is positional (updates touch the first matching document);
* Python exceptions that the bot code does not catch are modelled as
  `Except` error values carrying a short description of the exception and,
  for stateful steps, the store state at the moment the exception is raised;
* timestamps are natural numbers (the ISO string round-trip in the source is
  modelled as the identity).
-/

namespace FAUbot

/-- Result of dateutil's parse: a datetime value, modelled by its fields. -/
structure PyDateTime where
  year : Nat
  month : Nat
  day : Nat
  hour : Nat
  minute : Nat
deriving DecidableEq, Repr

/-- A document of the users collection / an item written to the store.
Attribute names follow the source (`_get_user_item`): `user_name` lowercased,
`ceremony_date` a canonical key, `operation` "buy" or "sell", `amount` a
number (the source keeps the regex digit text and converts with int() at each
read; the embedding stores the integer), `resolved` false on creation,
`last_notified` an optional timestamp. -/
structure UserRecord where
  user_name : String
  ceremony_date : String
  operation : String
  amount : Int
  resolved : Bool := false
  last_notified : Option Nat := none
deriving DecidableEq, Repr

/-- A key placed on the delete queue by `_new_user_delete_queue`:
the dict \x7b'user_name': user_name\x7d, which carries no `_id` field. -/
structure DeleteKey where
  user_name : String
deriving DecidableEq, Repr

/-- An inbox message as the bot sees it: author name and body. -/
structure Message where
  author : String
  body : String
deriving DecidableEq, Repr

/-! ## Regex matching

`COMMAND_PATTERN = "^!FAUbot (buy|sell) (\d\x7b1,2\x7d)(?: (.+))?$"` and
`RESOLVE_PATTERN = "^!FAUbot resolve (\d\x7b1,2\x7d) (?:\/u\/)?([\w_-]\x7b3,\x7d)(?: (.+))?$"`
are compiled with `re.compile` and applied with `.match` (anchored at the
start).  The matchers below implement exactly these two patterns over
character lists, including the greedy/backtracking behaviour of `\d\x7b1,2\x7d`,
the optional `/u/` prefix, and Python's `$` (end of string, or just before a
single trailing newline) and `.` (any character except newline).  Character
classes are modelled over ASCII. -/

/-- Python regex `\d` (ASCII): a decimal digit. -/
def pyDigit (c : Char) : Bool := 48 ≤ c.toNat && c.toNat ≤ 57

/-- Python regex `\w` (ASCII part): letter, digit or underscore. -/
def pyWord (c : Char) : Bool := c.isAlpha || c.isDigit || c = '_'

/-- The character class `[\w_-]` of the resolve pattern's username group. -/
def userChar (c : Char) : Bool := pyWord c || c = '-'

/-- Python `$` without MULTILINE: matches at the end of the string or just
before a newline at the end of the string. -/
def dollarAt (cs : List Char) : Bool := cs = [] || cs = ['\n']

/-- Match `(.+)$` against the whole remaining input: one or more non-newline
characters, then end (an optional single trailing newline is permitted by
`$`).  Returns the text captured by the group. -/
def dotPlusDollar (cs : List Char) : Option String :=
  let core := if cs.getLast? = some '\n' then cs.dropLast else cs
  if !core.isEmpty && core.all (fun c => c != '\n') then some ⟨core⟩ else none

/-- Match `(?: (.+))?$` against the remaining input: either the optional
group is skipped and `$` matches here, or a space and a non-empty rest are
consumed.  Returns the optional captured group. -/
def optSpaceRest (cs : List Char) : Option (Option String) :=
  if dollarAt cs then some none
  else
    match cs with
    | ' ' :: rest => (dotPlusDollar rest).map some
    | _ => none

/-- Drop a literal prefix, failing if the input does not start with it. -/
def dropLit : List Char → List Char → Option (List Char)
  | [], cs => some cs
  | _ :: _, [] => none
  | l :: ls, c :: cs => if l = c then dropLit ls cs else none

/-- Python's substring containment `needle in hay`: some suffix of `hay`
starts with `needle`. -/
def pyIn (needle : List Char) : List Char → Bool
  | [] => needle.isEmpty
  | c :: t => (dropLit needle (c :: t)).isSome || pyIn needle t

/-- Match `(\d\x7b1,2\x7d)` greedily (two digits if possible, backtracking to
one) followed by the rest-matcher `rm`.  Returns the captured digit text and
the rest-matcher's result. -/
def digits12 (cs : List Char) (rm : List Char → Option α) : Option (String × α) :=
  match cs with
  | [] => none
  | [c1] => if pyDigit c1 then (rm []).map (fun a => (⟨[c1]⟩, a)) else none
  | c1 :: c2 :: rest =>
    if pyDigit c1 then
      if pyDigit c2 then
        match rm rest with
        | some a => some (⟨[c1, c2]⟩, a)
        | none => (rm (c2 :: rest)).map (fun a => (⟨[c1]⟩, a))
      else (rm (c2 :: rest)).map (fun a => (⟨[c1]⟩, a))
    else none

/-- The alternation `(buy|sell)` followed by a literal space. -/
def matchOperation (cs : List Char) : Option (String × List Char) :=
  match dropLit "buy ".data cs with
  | some rest => some ("buy", rest)
  | none =>
    match dropLit "sell ".data cs with
    | some rest => some ("sell", rest)
    | none => none

/-- Match `COMMAND_PATTERN` against a message body, returning the captured
(operation, amount, optional date) groups. -/
def matchCommand (body : String) : Option (String × String × Option String) :=
  match dropLit "!FAUbot ".data body.data with
  | none => none
  | some cs =>
    match matchOperation cs with
    | none => none
    | some (op, cs) =>
      match digits12 cs optSpaceRest with
      | none => none
      | some (amt, odate) => some (op, amt, odate)

/-- Match the part of `RESOLVE_PATTERN` after the amount: a literal space, an
optional `/u/`, the username group `([\w_-]\x7b3,\x7d)`, then `(?: (.+))?$`.
The username group is matched greedily; no backtracking is needed because a
shorter match leaves a username character where the tail requires a space or
the end. -/
def resolveTail (cs : List Char) : Option (String × Option String) :=
  match dropLit " ".data cs with
  | none => none
  | some cs1 =>
    let cs2 := match dropLit "/u/".data cs1 with
      | some rest => rest
      | none => cs1
    let uname := cs2.takeWhile userChar
    let rest := cs2.dropWhile userChar
    if uname.length ≥ 3 then
      (optSpaceRest rest).map (fun od => (⟨uname⟩, od))
    else none

/-- Match `RESOLVE_PATTERN` against a message body, returning the captured
(amount, username, optional date) groups. -/
def matchResolve (body : String) : Option (String × String × Option String) :=
  match dropLit "!FAUbot resolve ".data body.data with
  | none => none
  | some cs =>
    match digits12 cs resolveTail with
    | none => none
    | some (amt, rest) => some (amt, rest.1, rest.2)

/-- Python int() applied to the digit strings the amount groups capture. -/
def digitsToNat (s : String) : Nat :=
  s.data.foldl (fun n c => n * 10 + (c.toNat - 48)) 0

/-- Python str.lower() (ASCII), applied character by character. -/
def pyLower (s : String) : String := ⟨s.data.map Char.toLower⟩

deriving instance DecidableEq for Except

/-! ## Parsed commands and parse errors -/

/-- The tuples the parser returns: `UserTuple(user, operation, amount, date)`
for a new-record command, `ResolveTuple(user, resolve_with, resolve_amount,
date)` for a resolve command.  Amounts are the captured digit strings, as in
the source. -/
inductive Command
  | userTuple (user operation amount date : String)
  | resolveTuple (user resolve_with resolve_amount date : String)
deriving DecidableEq, Repr

/-- The exceptions `parse_command` can raise.  The first four are the bot's
own classified errors; `uncaughtException` stands for a Python exception that
escapes the parser because no handler matches it (the description names the
exception). -/
inductive BotError
  | noCommandInMessage
  | invalidCommand (user body : String)
  | invalidCeremonyDate (user operation amount givenDate : String)
      (choices : List String)
  | missingCeremonyDate (user operation amount : String) (choices : List String)
  | uncaughtException (desc : String)
deriving DecidableEq, Repr

/-! ## Ceremony-date resolution

`_parse_new_command` and `_get_user_key` resolve a raw date by full parsed
datetime equality against the ceremony dict's keys:
`next(d for d in self.ceremony_dict if parse(d) == parse(raw))`.
The ceremony calendar is the ordered list of canonical keys; by construction
(`_get_ceremony_dict`) every key parses successfully with a non-midnight
time. -/

/-- First canonical key whose parsed datetime equals `dt`. -/
def findCeremonyDate (parse : String → Option PyDateTime) (cal : List String)
    (dt : PyDateTime) : Option String :=
  cal.find? (fun d => decide (parse d = some dt))

/-- The calendar resolution step shared by `_parse_new_command`,
`_parse_resolve_command` and `_get_user_key`: parse the raw text, then find
the first canonical key with an equal parsed datetime.  `none` covers both
dateutil's ValueError on the raw text and the exhausted generator
(StopIteration). -/
def resolveDate (parse : String → Option PyDateTime) (cal : List String)
    (raw : String) : Option String :=
  match parse raw with
  | none => none
  | some dt => findCeremonyDate parse cal dt

/-- Same-calendar-day comparison of two parsed datetimes (used only to state
the spec's "parse to the same calendar day" side condition). -/
def sameCalendarDay (a b : PyDateTime) : Bool :=
  a.year = b.year && a.month = b.month && a.day = b.day

/-! ## Command parsing (`parse_command` and helpers) -/

/-- Translation of `_parse_new_command`.  The author name is lowercased; the
date group being absent makes `parse(None)` raise AttributeError, caught by
the `except (IndexError, AttributeError)` arm as `MissingCeremonyDate`; a
ValueError from dateutil or an exhausted generator becomes
`InvalidCeremonyDate` with the offending text and the calendar keys as
choices. -/
def parse_new_command (parse : String → Option PyDateTime) (cal : List String)
    (author operation amount : String) (odate : Option String) :
    Except BotError Command :=
  let user := pyLower author
  match odate with
  | none => .error (.missingCeremonyDate user operation amount cal)
  | some s =>
    match parse s with
    | none => .error (.invalidCeremonyDate user operation amount s cal)
    | some dt =>
      match findCeremonyDate parse cal dt with
      | none => .error (.invalidCeremonyDate user operation amount s cal)
      | some d => .ok (.userTuple user operation amount d)

/-- Translation of `_parse_resolve_command`.  Only StopIteration is caught
(and then re-raised as `raise InvalidCeremonyDate` with no constructor
arguments, itself a TypeError), so: an empty calendar exhausts the generator
before the date is ever parsed; a missing date group makes `parse(None)`
raise AttributeError; an unparseable date raises dateutil's ValueError; a
parseable date matching no key again exhausts the generator.  All four escape
the function.  On success the tuple keeps the author name unlowered (the
source lowers it later, in `_resolve_user`). -/
def parse_resolve_command (parse : String → Option PyDateTime)
    (cal : List String) (author amount uname : String) (odate : Option String) :
    Except BotError Command :=
  match cal with
  | [] => .error (.uncaughtException "TypeError: InvalidCeremonyDate() missing arguments")
  | _ :: _ =>
    match odate with
    | none => .error (.uncaughtException "AttributeError: dateutil parse called on None")
    | some s =>
      match parse s with
      | none => .error (.uncaughtException "ValueError: unparseable resolve date")
      | some dt =>
        match findCeremonyDate parse cal dt with
        | none => .error (.uncaughtException "TypeError: InvalidCeremonyDate() missing arguments")
        | some d => .ok (.resolveTuple author uname amount d)

/-- Translation of `parse_command`: raise `NoCommandInMessage` when the
trigger "!FAUbot" is absent from the body, else try `COMMAND_PATTERN`, then
`RESOLVE_PATTERN`, then raise `InvalidCommand` with the author and the
original body. -/
def parse_command (parse : String → Option PyDateTime) (cal : List String)
    (author body : String) : Except BotError Command :=
  if pyIn "!FAUbot".data body.data then
    match matchCommand body with
    | some (op, amt, odate) => parse_new_command parse cal author op amt odate
    | none =>
      match matchResolve body with
      | some (amt, uname, odate) =>
        parse_resolve_command parse cal author amt uname odate
      | none => .error (.invalidCommand author body)
  else .error .noCommandInMessage

/-! ## Store helpers (Mongo users collection) -/

/-- Translation of `_get_user_key`: lowercase the user name and re-resolve the
ceremony date against the calendar; an exhausted generator (StopIteration)
would escape, modelled as `none`. -/
def get_user_key (parse : String → Option PyDateTime) (cal : List String)
    (user_name ceremony_date : String) : Option (String × String) :=
  (resolveDate parse cal ceremony_date).map (fun cd => (pyLower user_name, cd))

/-- Translation of `_get_user_item`: the key plus operation, amount and
`resolved = False`. -/
def get_user_item (parse : String → Option PyDateTime) (cal : List String)
    (user operation amount date : String) : Option UserRecord :=
  (get_user_key parse cal user date).map (fun k =>
    { user_name := k.1, ceremony_date := k.2, operation := operation,
      amount := (digitsToNat amount : Int), resolved := false,
      last_notified := none })

/-- Translation of `_update_amount`: find the first document for the user and
date, read its amount, and set `amount := amount + delta` on that document.
`find_one` returning no document makes the subscript on None raise TypeError,
modelled as `none`. -/
def update_amount (db : List UserRecord) (name date : String) (delta : Int) :
    Option (List UserRecord) :=
  match db with
  | [] => none
  | r :: rest =>
    if r.user_name = name && r.ceremony_date = date then
      some ({ r with amount := r.amount + delta } :: rest)
    else (update_amount rest name date delta).map (r :: ·)

/-- Translation of `_resolve_user`: lowercase both parties and decrement each
one's amount by int(resolve_amount) at the tuple's ceremony date, the
initiating user first. -/
def resolve_user (db : List UserRecord)
    (user resolve_with resolve_amount date : String) : Option (List UserRecord) := do
  let amt : Int := digitsToNat resolve_amount
  let db1 ← update_amount db (pyLower user) date (-amt)
  update_amount db1 (pyLower resolve_with) date (-amt)

/-! ## Queues and batch flushes -/

/-- The bot's mutable state for one work cycle: the add queue, the delete
queue, and the users collection. -/
structure BotState where
  addQueue : List UserRecord
  deleteQueue : List DeleteKey
  db : List UserRecord
deriving DecidableEq, Repr

/-- Translation of `_queue_data_present`. -/
def queue_data_present (st : BotState) : Bool :=
  !st.addQueue.isEmpty || !st.deleteQueue.isEmpty

/-- Translation of `_batch_write_new_users`: when any queue holds data, drain
the add queue and call insert_many on the drained list.  pymongo's
insert_many raises InvalidOperation on an empty document list (which happens
whenever only deletes are queued); the error value carries the state at the
raise. -/
def batch_write_new_users (st : BotState) : Except (String × BotState) BotState :=
  if queue_data_present st then
    if st.addQueue.isEmpty then
      .error ("InvalidOperation: documents must be a non-empty list", st)
    else .ok { st with addQueue := [], db := st.db ++ st.addQueue }
  else .ok st

/-- Translation of `_batch_delete_users`: drain the delete queue, reading
`['_id']` from each queued key.  The keys queued by `_new_user_delete_queue`
hold only `user_name`, so the first drained key raises KeyError; the error
state has that key popped and the store untouched. -/
def batch_delete_users (st : BotState) : Except (String × BotState) BotState :=
  match st.deleteQueue with
  | [] => .ok st
  | _ :: rest => .error ("KeyError: _id", { st with deleteQueue := rest })

/-- Translation of `_batch_write_new_db_records_new`, the flush the work
cycle calls: adds first, then deletes. -/
def batch_write_new_db_records_new (st : BotState) :
    Except (String × BotState) BotState := do
  batch_delete_users (← batch_write_new_users st)

/-- A DynamoDB put with `overwrite_by_pkeys=['user_name', 'ceremony_date']`:
any existing item with the same primary key is replaced. -/
def overwrite_put (tbl : List UserRecord) (item : UserRecord) : List UserRecord :=
  tbl.filter (fun r =>
    !(r.user_name = item.user_name && r.ceremony_date = item.ceremony_date)) ++ [item]

/-- A DynamoDB delete by primary key. -/
def dyn_delete (tbl : List UserRecord) (k : String × String) : List UserRecord :=
  tbl.filter (fun r => !(r.user_name = k.1 && r.ceremony_date = k.2))

/-- Translation of `_batch_write_new_db_records`, the DynamoDB batch-writer
flush: if any queue holds data, drain the delete queue into the batch writer
first, then the add queue; the writer's overwrite-by-primary-key semantics
make a later request supersede an earlier one for the same key, which equals
applying all deletes and then all puts in order.  Delete-queue entries are
full primary keys here, as `batch.delete_item(Key=item)` requires. -/
def batch_write_new_db_records (tbl : List UserRecord)
    (deleteQ : List (String × String)) (addQ : List UserRecord) :
    List UserRecord :=
  if deleteQ.isEmpty && addQ.isEmpty then tbl
  else addQ.foldl overwrite_put (deleteQ.foldl dyn_delete tbl)

/-! ## Inbox processing (`parse_commands_from_inbox`) -/

/-- Processing of one inbox message (the loop body of
`parse_commands_from_inbox`): a body containing the delete command queues a
delete key for the lowercased author; otherwise `parse_command` runs and its
outcome is dispatched — a `UserTuple` is turned into a store item and queued
on the add queue, a `ResolveTuple` is applied to the store at once, a
`NoCommandInMessage` leaves the message unread, and the three classified
errors only trigger a reply.  The returned Bool is `mark_as_read`.  An
exception the loop does not catch aborts processing, carrying the state at
the raise. -/
def process_message (parse : String → Option PyDateTime) (cal : List String)
    (st : BotState) (m : Message) : Except (String × BotState) (BotState × Bool) :=
  if pyIn "!FAUbot delete me".data m.body.data then
    .ok ({ st with deleteQueue := st.deleteQueue ++ [⟨pyLower m.author⟩] }, true)
  else
    match parse_command parse cal m.author m.body with
    | .ok (.userTuple u op amt d) =>
      match get_user_item parse cal u op amt d with
      | some item => .ok ({ st with addQueue := st.addQueue ++ [item] }, true)
      | none => .error ("StopIteration: _get_user_key", st)
    | .ok (.resolveTuple u w amt d) =>
      match resolve_user st.db u w amt d with
      | some db2 => .ok ({ st with db := db2 }, true)
      | none => .error ("TypeError: user record not found in _update_amount", st)
    | .error .noCommandInMessage => .ok (st, false)
    | .error (.invalidCommand _ _) => .ok (st, true)
    | .error (.invalidCeremonyDate _ _ _ _ _) => .ok (st, true)
    | .error (.missingCeremonyDate _ _ _ _) => .ok (st, true)
    | .error (.uncaughtException e) => .error (e, st)

/-- Translation of `parse_commands_from_inbox`: process the unread messages
in order, then flush with `_batch_write_new_db_records_new`. -/
def parse_commands_from_inbox (parse : String → Option PyDateTime)
    (cal : List String) (st : BotState) (inbox : List Message) :
    Except (String × BotState) BotState := do
  let st ← inbox.foldlM (fun s m => do
    pure (← process_message parse cal s m).1) st
  batch_write_new_db_records_new st

/-! ## Matching and notification (`match_ticket_users` and helpers) -/

/-- Translation of `_get_users_by_date_and_operation_new` with its default
`has_tickets=True`: the documents for the date and operation, then only
those with a positive amount. -/
def get_users_by_date_and_operation_new (db : List UserRecord)
    (date operation : String) : List UserRecord :=
  (db.filter (fun r => r.ceremony_date = date && r.operation = operation)).filter
    (fun r => decide (0 < r.amount))

/-- Translation of `_has_last_notified`. -/
def has_last_notified (r : UserRecord) : Bool := r.last_notified.isSome

/-- The renotification gate of `_get_users_by_date_and_operations_new`: keep
a user with no `last_notified`, or one last notified at or before
`now - hours`. -/
def notify_eligible (now hours : Nat) (r : UserRecord) : Bool :=
  !has_last_notified r || decide (r.last_notified.getD 0 ≤ now - hours)

/-- Translation of `_get_users_by_date_and_operations_new`: the buy and sell
pools for a date, gated by the renotification interval when it is
positive. -/
def get_users_by_date_and_operations_new (db : List UserRecord) (date : String)
    (hours now : Nat) : List UserRecord × List UserRecord :=
  if 0 < hours then
    ((get_users_by_date_and_operation_new db date "buy").filter (notify_eligible now hours),
     (get_users_by_date_and_operation_new db date "sell").filter (notify_eligible now hours))
  else
    (get_users_by_date_and_operation_new db date "buy",
     get_users_by_date_and_operation_new db date "sell")

/-- Translation of `get_users_for_notification_new`: the per-date pools over
the whole calendar, keeping only dates where some pool is non-empty. -/
def get_users_for_notification_new (db : List UserRecord) (cal : List String)
    (hours now : Nat) : List (String × List UserRecord × List UserRecord) :=
  (cal.map (fun c => (c, get_users_by_date_and_operations_new db c hours now))).filter
    (fun e => !e.2.1.isEmpty || !e.2.2.isEmpty)

/-- Stable insertion for the ascending-by-amount sort. -/
def insertByAmount (r : UserRecord) : List UserRecord → List UserRecord
  | [] => [r]
  | x :: xs =>
    if decide (x.amount < r.amount) then x :: insertByAmount r xs
    else r :: x :: xs

/-- Python's stable `sorted(users, key=lambda u: u['amount'])`. -/
def sortByAmount : List UserRecord → List UserRecord
  | [] => []
  | r :: rest => insertByAmount r (sortByAmount rest)

/-- Replace the value stored under key `k` (keys are unique in a built
dict). -/
def updateVal (k : String) (v : α) : List (String × α) → List (String × α)
  | [] => []
  | e :: es => if e.1 = k then (k, v) :: es else e :: updateVal k v es

/-- Insert one pair with Python dict semantics: an existing key keeps its
position and takes the new value, a new key is appended. -/
def pyInsert (acc : List (String × α)) (kv : String × α) : List (String × α) :=
  if acc.any (fun e => e.1 = kv.1) then updateVal kv.1 kv.2 acc
  else acc ++ [kv]

/-- A Python dict comprehension over a list of key-value pairs. -/
def pyDict (l : List (String × α)) : List (String × α) := l.foldl pyInsert []

/-- One notification handed to the Reddit transport by
`_notify_buyers_sellers`: the recipient and the counter-party records listed
in the message body. -/
structure SentMessage where
  user : String
  counterparties : List UserRecord
deriving DecidableEq, Repr

/-- Translation of `_notify_buyers_sellers`: one sent message per entry of
the to-notify dict. -/
def notify_buyers_sellers (to_notify : List (String × List UserRecord)) :
    List SentMessage :=
  to_notify.map (fun e => ⟨e.1, e.2⟩)

/-- The notification loop of `match_ticket_users`: for each date of the user
dict, build the buyer dict (each buyer mapped to the sellers sorted ascending
by amount) and the seller dict symmetrically, and notify both. -/
def match_notifications
    (users : List (String × List UserRecord × List UserRecord)) :
    List SentMessage :=
  (users.map (fun e =>
    notify_buyers_sellers
        (pyDict (e.2.1.map (fun b => (b.user_name, sortByAmount e.2.2)))) ++
    notify_buyers_sellers
        (pyDict (e.2.2.map (fun s => (s.user_name, sortByAmount e.2.1)))))).flatten

/-- Translation of `_set_users_notified`: one `last_notified` stamp call per
user of every pool in the user dict, at the current time. -/
def set_users_notified
    (users : List (String × List UserRecord × List UserRecord)) (now : Nat) :
    List (String × String × Nat) :=
  (users.map (fun e => (e.2.1 ++ e.2.2).map (fun u => (u.user_name, e.1, now)))).flatten

/-- Translation of `match_ticket_users` as the pair of its two effects: the
notifications sent and the stamp calls issued. -/
def match_ticket_users (db : List UserRecord) (cal : List String)
    (hours now : Nat) : List SentMessage × List (String × String × Nat) :=
  (match_notifications (get_users_for_notification_new db cal hours now),
   set_users_notified (get_users_for_notification_new db cal hours now) now)

/-! ## Concrete example data

`dateutilParse` is modelled from the spec's CalendarResolver contract and
dateutil's documented behaviour on the concrete strings the examples use: a
date with no time parses to midnight of that day, a date with a time parses
to that time, anything else raises ValueError (`none`).  The example
calendar's canonical keys carry non-midnight times, as `_get_ceremony_dict`
guarantees (lines with a midnight parse are skipped as noise). -/

/-- dateutil's parse on the strings used in the concrete scenarios. -/
def dateutilParse : String → Option PyDateTime
  | "December 16, 2016" => some ⟨2016, 12, 16, 0, 0⟩
  | "Dec 16 2016" => some ⟨2016, 12, 16, 0, 0⟩
  | "December 16, 2016 4 p.m." => some ⟨2016, 12, 16, 16, 0⟩
  | "Dec 16 2016 4 p.m." => some ⟨2016, 12, 16, 16, 0⟩
  | "December 15, 2016 9 a.m." => some ⟨2016, 12, 15, 9, 0⟩
  | "Dec 15 2016 9 a.m." => some ⟨2016, 12, 15, 9, 0⟩
  | _ => none

/-- An example ceremony calendar (list of canonical keys). -/
def calEx : List String := ["December 15, 2016 9 a.m.", "December 16, 2016 4 p.m."]

/-- Example store for the resolve scenario: alice buys 5 and jpfau sells 4
for the December 16 ceremony. -/
def dbC2 : List UserRecord :=
  [{ user_name := "alice", ceremony_date := "December 16, 2016 4 p.m.",
     operation := "buy", amount := 5 },
   { user_name := "jpfau", ceremony_date := "December 16, 2016 4 p.m.",
     operation := "sell", amount := 4 }]

/-- Example item on the add queue: a buy record for bob. -/
def bobItem : UserRecord :=
  { user_name := "bob", ceremony_date := "December 16, 2016 4 p.m.",
    operation := "buy", amount := 5 }

/-- Example store where bob holds records for two different ceremony
dates. -/
def bobDb : List UserRecord :=
  [{ user_name := "bob", ceremony_date := "December 16, 2016 4 p.m.",
     operation := "buy", amount := 5 },
   { user_name := "bob", ceremony_date := "December 15, 2016 9 a.m.",
     operation := "sell", amount := 2 }]

/-- Example store for the matching scenarios: one buyer, one active seller
and one seller with zero tickets on the December 16 ceremony. -/
def dbM : List UserRecord :=
  [{ user_name := "b1", ceremony_date := "December 16, 2016 4 p.m.",
     operation := "buy", amount := 2 },
   { user_name := "s1", ceremony_date := "December 16, 2016 4 p.m.",
     operation := "sell", amount := 3 },
   { user_name := "z0", ceremony_date := "December 16, 2016 4 p.m.",
     operation := "sell", amount := 0 }]

/-- The single buyer of the one-sided matching scenario. -/
def b1Rec : UserRecord :=
  { user_name := "b1", ceremony_date := "December 16, 2016 4 p.m.",
    operation := "buy", amount := 2 }

/-- Example store for the one-sided matching scenario: a single buyer and no
sellers. -/
def dbOneSided : List UserRecord := [b1Rec]

/-! ## General lemmas -/

theorem dropLit_append_isSome {l1 l2 cs : List Char}
    (h : (dropLit (l1 ++ l2) cs).isSome = true) :
    (dropLit l1 cs).isSome = true := by
  induction l1 generalizing cs with
  | nil => simp [dropLit]
  | cons a as ih =>
    cases cs with
    | nil => simp [dropLit] at h
    | cons c cs =>
      by_cases hac : a = c
      · subst hac
        simp only [List.cons_append, dropLit, if_pos rfl] at h ⊢
        exact ih h
      · simp only [List.cons_append, dropLit, if_neg hac] at h ⊢
        exact h

theorem pyIn_append {l1 l2 : List Char} :
    ∀ {hay : List Char}, pyIn (l1 ++ l2) hay = true → pyIn l1 hay = true := by
  intro hay
  induction hay with
  | nil =>
    simp only [pyIn, List.isEmpty_iff, List.append_eq_nil]
    intro h
    simp [h.1]
  | cons c t ih =>
    simp only [pyIn, Bool.or_eq_true]
    rintro (h | h)
    · exact Or.inl (dropLit_append_isSome h)
    · exact Or.inr (ih h)

theorem mem_insertByAmount {x r : UserRecord} :
    ∀ {l : List UserRecord}, x ∈ insertByAmount r l ↔ x = r ∨ x ∈ l := by
  intro l
  induction l with
  | nil => simp [insertByAmount]
  | cons a as ih =>
    by_cases h : a.amount < r.amount
    · simp only [insertByAmount, if_pos (decide_eq_true h), List.mem_cons, ih]
      tauto
    · simp only [insertByAmount, if_neg (by simpa using h : ¬decide (a.amount < r.amount) = true),
        List.mem_cons]

theorem mem_sortByAmount {x : UserRecord} :
    ∀ {l : List UserRecord}, x ∈ sortByAmount l ↔ x ∈ l := by
  intro l
  induction l with
  | nil => simp [sortByAmount]
  | cons a as ih => simp [sortByAmount, mem_insertByAmount, ih]

theorem mem_updateVal {α : Type} {k : String} {v : α} :
    ∀ {acc : List (String × α)} {e}, e ∈ updateVal k v acc → e ∈ acc ∨ e = (k, v) := by
  intro acc
  induction acc with
  | nil => simp [updateVal]
  | cons a as ih =>
    intro e
    by_cases h : a.1 = k
    · simp only [updateVal, if_pos h, List.mem_cons]
      tauto
    · simp only [updateVal, if_neg h, List.mem_cons]
      rintro (rfl | he)
      · tauto
      · rcases ih he with h' | h' <;> tauto

theorem mem_pyInsert {α : Type} {acc : List (String × α)} {kv e : String × α}
    (h : e ∈ pyInsert acc kv) : e ∈ acc ∨ e = kv := by
  unfold pyInsert at h
  split at h
  · rcases mem_updateVal h with h' | h'
    · exact Or.inl h'
    · exact Or.inr h'
  · rcases List.mem_append.1 h with h' | h'
    · exact Or.inl h'
    · exact Or.inr (by simpa using h')

theorem mem_foldl_pyInsert {α : Type} :
    ∀ (l : List (String × α)) (acc : List (String × α)) (e : String × α),
      e ∈ l.foldl pyInsert acc → e ∈ acc ∨ e ∈ l := by
  intro l
  induction l with
  | nil => simp
  | cons kv rest ih =>
    intro acc e h
    rcases ih (pyInsert acc kv) e h with h' | h'
    · rcases mem_pyInsert h' with h'' | h''
      · exact Or.inl h''
      · exact Or.inr (by simp [h''])
    · exact Or.inr (List.mem_cons_of_mem _ h')

theorem pyDict_subset {α : Type} {l : List (String × α)} {e : String × α}
    (h : e ∈ pyDict l) : e ∈ l := by
  rcases mem_foldl_pyInsert l [] e h with h' | h'
  · simp at h'
  · exact h'

theorem self_mem_updateVal {α : Type} {k : String} {v : α} :
    ∀ {acc : List (String × α)},
      acc.any (fun e => e.1 = k) = true → (k, v) ∈ updateVal k v acc := by
  intro acc
  induction acc with
  | nil => simp
  | cons a as ih =>
    intro h
    by_cases hk : a.1 = k
    · simp [updateVal, if_pos hk]
    · simp only [List.any_cons, Bool.or_eq_true, decide_eq_true_eq] at h
      rcases h with h | h
      · exact absurd h hk
      · simp only [updateVal, if_neg hk, List.mem_cons]
        exact Or.inr (ih h)

theorem key_mem_updateVal {α : Type} {k' : String} {v' : α} {k : String} {v : α} :
    ∀ {acc : List (String × α)}, (k, v) ∈ acc →
      ∃ v2, (k, v2) ∈ updateVal k' v' acc := by
  intro acc
  induction acc with
  | nil => simp
  | cons a as ih =>
    intro h
    by_cases hk : a.1 = k'
    · rcases List.mem_cons.1 h with rfl | h'
      · exact ⟨v', by simp [updateVal, if_pos hk, ← hk]⟩
      · exact ⟨v, by simp only [updateVal, if_pos hk, List.mem_cons]; exact Or.inr h'⟩
    · rcases List.mem_cons.1 h with rfl | h'
      · exact ⟨v, by simp [updateVal, if_neg hk]⟩
      · rcases ih h' with ⟨v2, hv2⟩
        exact ⟨v2, by simp only [updateVal, if_neg hk, List.mem_cons]; exact Or.inr hv2⟩

theorem key_mem_pyInsert_of_mem {α : Type} {acc : List (String × α)}
    (kv : String × α) {k : String} {v : α} (h : (k, v) ∈ acc) :
    ∃ v2, (k, v2) ∈ pyInsert acc kv := by
  unfold pyInsert
  split
  · exact key_mem_updateVal h
  · exact ⟨v, List.mem_append_left _ h⟩

theorem key_mem_pyInsert_self {α : Type} (acc : List (String × α))
    (kv : String × α) : ∃ v2, (kv.1, v2) ∈ pyInsert acc kv := by
  unfold pyInsert
  split
  · next h => exact ⟨kv.2, self_mem_updateVal h⟩
  · exact ⟨kv.2, List.mem_append_right _ (by simp)⟩

theorem key_mem_foldl_pyInsert {α : Type} :
    ∀ (l : List (String × α)) (acc : List (String × α)) (k : String),
      (∃ v, (k, v) ∈ acc) → ∃ v2, (k, v2) ∈ l.foldl pyInsert acc := by
  intro l
  induction l with
  | nil => intro acc k h; simpa using h
  | cons kv rest ih =>
    intro acc k h
    rcases h with ⟨v, hv⟩
    rcases key_mem_pyInsert_of_mem kv hv with ⟨v2, hv2⟩
    exact ih (pyInsert acc kv) k ⟨v2, hv2⟩

theorem key_mem_pyDict {α : Type} :
    ∀ (l : List (String × α)) (acc : List (String × α)) (kv : String × α),
      kv ∈ l → ∃ v2, (kv.1, v2) ∈ l.foldl pyInsert acc := by
  intro l
  induction l with
  | nil => simp
  | cons a rest ih =>
    intro acc kv h
    rcases List.mem_cons.1 h with rfl | h'
    · exact key_mem_foldl_pyInsert rest (pyInsert acc kv) kv.1
        (key_mem_pyInsert_self acc kv)
    · exact ih (pyInsert acc a) kv h'

theorem pyDigit_bounds {c : Char} (h : pyDigit c = true) :
    48 ≤ c.toNat ∧ c.toNat ≤ 57 := by
  simpa [pyDigit, Bool.and_eq_true, decide_eq_true_eq] using h

theorem digits12_amount_shape {α : Type} {cs : List Char}
    {rm : List Char → Option α} {s : String} {a : α}
    (h : digits12 cs rm = some (s, a)) :
    (∃ c1, pyDigit c1 = true ∧ s = ⟨[c1]⟩) ∨
    (∃ c1 c2, pyDigit c1 = true ∧ pyDigit c2 = true ∧ s = ⟨[c1, c2]⟩) := by
  unfold digits12 at h
  split at h
  · exact absurd h (by simp)
  · next c1 =>
    split at h
    · next hd =>
      rcases Option.map_eq_some'.1 h with ⟨y, _, heq⟩
      exact Or.inl ⟨c1, hd, (Prod.ext_iff.1 heq).1.symm⟩
    · exact absurd h (by simp)
  · next c1 c2 rest =>
    split at h
    · next h1 =>
      split at h
      · next h2 =>
        split at h
        · next a' hrm =>
          exact Or.inr ⟨c1, c2, h1, h2,
            (Prod.ext_iff.1 (Option.some.inj h)).1.symm⟩
        · rcases Option.map_eq_some'.1 h with ⟨y, _, heq⟩
          exact Or.inl ⟨c1, h1, (Prod.ext_iff.1 heq).1.symm⟩
      · rcases Option.map_eq_some'.1 h with ⟨y, _, heq⟩
        exact Or.inl ⟨c1, h1, (Prod.ext_iff.1 heq).1.symm⟩
    · exact absurd h (by simp)

theorem amount_shape_digits {s : String}
    (h : (∃ c1, pyDigit c1 = true ∧ s = ⟨[c1]⟩) ∨
      (∃ c1 c2, pyDigit c1 = true ∧ pyDigit c2 = true ∧ s = ⟨[c1, c2]⟩)) :
    s.data ≠ [] ∧ s.data.all pyDigit = true ∧ digitsToNat s ≤ 99 := by
  rcases h with ⟨c1, hd, rfl⟩ | ⟨c1, c2, h1, h2, rfl⟩
  · have hb := pyDigit_bounds hd
    refine ⟨by simp, by simp [hd], ?_⟩
    simp only [digitsToNat, List.foldl]
    omega
  · have hb1 := pyDigit_bounds h1
    have hb2 := pyDigit_bounds h2
    refine ⟨by simp, by simp [h1, h2], ?_⟩
    simp only [digitsToNat, List.foldl]
    omega

theorem matchCommand_amount {body op amt : String} {od : Option String}
    (h : matchCommand body = some (op, amt, od)) :
    (∃ c1, pyDigit c1 = true ∧ amt = ⟨[c1]⟩) ∨
    (∃ c1 c2, pyDigit c1 = true ∧ pyDigit c2 = true ∧ amt = ⟨[c1, c2]⟩) := by
  unfold matchCommand at h
  split at h
  · exact absurd h (by simp)
  · split at h
    · exact absurd h (by simp)
    · split at h
      · exact absurd h (by simp)
      · next _ _ hd =>
        obtain ⟨rfl, rfl, rfl⟩ :
            op = _ ∧ amt = _ ∧ od = _ := by
          have := Option.some.inj h
          simp only [Prod.mk.injEq] at this
          exact ⟨this.1.symm, this.2.1.symm, this.2.2.symm⟩
        exact digits12_amount_shape hd

theorem matchResolve_amount {body amt un : String} {od : Option String}
    (h : matchResolve body = some (amt, un, od)) :
    (∃ c1, pyDigit c1 = true ∧ amt = ⟨[c1]⟩) ∨
    (∃ c1 c2, pyDigit c1 = true ∧ pyDigit c2 = true ∧ amt = ⟨[c1, c2]⟩) := by
  unfold matchResolve at h
  split at h
  · exact absurd h (by simp)
  · split at h
    · exact absurd h (by simp)
    · next _ _ hd =>
      obtain ⟨rfl, rfl, rfl⟩ :
          amt = _ ∧ un = _ ∧ od = _ := by
        have := Option.some.inj h
        simp only [Prod.mk.injEq] at this
        exact ⟨this.1.symm, this.2.1.symm, this.2.2.symm⟩
      exact digits12_amount_shape hd


theorem mem_overwrite_put {tbl : List UserRecord} {item r : UserRecord}
    (h : r ∈ overwrite_put tbl item) : r ∈ tbl ∨ r = item := by
  rcases List.mem_append.1 h with h' | h'
  · exact Or.inl (List.mem_filter.1 h').1
  · exact Or.inr (by simpa using h')

theorem overwrite_put_preserves_key {tbl : List UserRecord} {item : UserRecord}
    {k : String × String}
    (h : ∃ r ∈ tbl, r.user_name = k.1 ∧ r.ceremony_date = k.2) :
    ∃ r ∈ overwrite_put tbl item, r.user_name = k.1 ∧ r.ceremony_date = k.2 := by
  by_cases hk : item.user_name = k.1 ∧ item.ceremony_date = k.2
  · exact ⟨item, List.mem_append_right _ (by simp), hk⟩
  · rcases h with ⟨r, hr, hkr⟩
    refine ⟨r, List.mem_append_left _ (List.mem_filter.2 ⟨hr, ?_⟩), hkr⟩
    have hne : ¬(r.user_name = item.user_name ∧ r.ceremony_date = item.ceremony_date) := by
      rintro ⟨h1, h2⟩
      exact hk ⟨h1 ▸ hkr.1, h2 ▸ hkr.2⟩
    simp only [Bool.not_eq_true', Bool.and_eq_false_iff, decide_eq_false_iff_not]
    tauto

theorem puts_preserve_key :
    ∀ (addQ : List UserRecord) (tbl : List UserRecord) (k : String × String),
      (∃ r ∈ tbl, r.user_name = k.1 ∧ r.ceremony_date = k.2) →
      ∃ r ∈ addQ.foldl overwrite_put tbl, r.user_name = k.1 ∧ r.ceremony_date = k.2 := by
  intro addQ
  induction addQ with
  | nil => intro tbl k h; exact h
  | cons a as ih =>
    intro tbl k h
    exact ih (overwrite_put tbl a) k (overwrite_put_preserves_key h)

theorem puts_establish_key :
    ∀ (addQ : List UserRecord) (tbl : List UserRecord) (r0 : UserRecord),
      r0 ∈ addQ →
      ∃ r ∈ addQ.foldl overwrite_put tbl,
        r.user_name = r0.user_name ∧ r.ceremony_date = r0.ceremony_date := by
  intro addQ
  induction addQ with
  | nil => simp
  | cons a as ih =>
    intro tbl r0 h
    rcases List.mem_cons.1 h with rfl | h'
    · exact puts_preserve_key as (overwrite_put tbl r0) (r0.user_name, r0.ceremony_date)
        ⟨r0, List.mem_append_right _ (by simp), rfl, rfl⟩
    · exact ih (overwrite_put tbl a) r0 h'

theorem deletes_foldl_subset :
    ∀ (ds : List (String × String)) (tbl : List UserRecord) (r : UserRecord),
      r ∈ ds.foldl dyn_delete tbl → r ∈ tbl := by
  intro ds
  induction ds with
  | nil => intro tbl r h; exact h
  | cons d ds' ih =>
    intro tbl r h
    exact (List.mem_filter.1 (ih (dyn_delete tbl d) r h)).1

theorem dyn_delete_not_key {tbl : List UserRecord} {k : String × String}
    {r : UserRecord} (h : r ∈ dyn_delete tbl k) :
    ¬(r.user_name = k.1 ∧ r.ceremony_date = k.2) := by
  have := (List.mem_filter.1 h).2
  simp only [Bool.not_eq_true', Bool.and_eq_false_iff, decide_eq_false_iff_not] at this
  tauto

theorem deletes_remove_key :
    ∀ (ds : List (String × String)) (tbl : List UserRecord) (k : String × String),
      k ∈ ds → ∀ r ∈ ds.foldl dyn_delete tbl,
        ¬(r.user_name = k.1 ∧ r.ceremony_date = k.2) := by
  intro ds
  induction ds with
  | nil => simp
  | cons d ds' ih =>
    intro tbl k hk r hr
    rcases List.mem_cons.1 hk with rfl | hk'
    · exact dyn_delete_not_key (deletes_foldl_subset ds' (dyn_delete tbl k) r hr)
    · exact ih (dyn_delete tbl d) k hk' r hr

theorem puts_preserve_absent :
    ∀ (addQ : List UserRecord) (tbl : List UserRecord) (k : String × String),
      (∀ a ∈ addQ, ¬(a.user_name = k.1 ∧ a.ceremony_date = k.2)) →
      (∀ r ∈ tbl, ¬(r.user_name = k.1 ∧ r.ceremony_date = k.2)) →
      ∀ r ∈ addQ.foldl overwrite_put tbl,
        ¬(r.user_name = k.1 ∧ r.ceremony_date = k.2) := by
  intro addQ
  induction addQ with
  | nil => intro tbl k _ htbl r hr; exact htbl r hr
  | cons a as ih =>
    intro tbl k hq htbl r hr
    refine ih (overwrite_put tbl a) k (fun a2 ha2 => hq a2 (List.mem_cons_of_mem _ ha2)) ?_ r hr
    intro r2 hr2
    rcases mem_overwrite_put hr2 with h2 | rfl
    · exact htbl r2 h2
    · exact hq r2 (List.mem_cons_self _ _)

/-! ## Claim theorems -/

/-- C5: a message body without the trigger token makes `parse_command` raise
`NoCommandInMessage`, and processing such a message leaves the state
unchanged and the message unread; a body containing the trigger that matches
neither the new-record form nor the resolve form makes `parse_command` raise
`InvalidCommand` carrying the author and the original body. -/
theorem c5_no_command_and_invalid_command
    (parse : String → Option PyDateTime) (cal : List String) :
    (∀ (st : BotState) (m : Message), pyIn "!FAUbot".data m.body.data = false →
      parse_command parse cal m.author m.body = .error .noCommandInMessage ∧
      process_message parse cal st m = .ok (st, false)) ∧
    (∀ author body : String, pyIn "!FAUbot".data body.data = true →
      matchCommand body = none → matchResolve body = none →
      parse_command parse cal author body = .error (.invalidCommand author body)) := by
  constructor
  · intro st m h
    have hdel : pyIn "!FAUbot delete me".data m.body.data = false := by
      by_contra hd
      have hd' : pyIn ("!FAUbot".data ++ " delete me".data) m.body.data = true := by
        have : "!FAUbot delete me".data = "!FAUbot".data ++ " delete me".data := by decide
        rw [← this]
        exact Bool.of_not_eq_false hd
      rw [pyIn_append hd'] at h
      exact Bool.true_eq_false ▸ h
    have hpc : parse_command parse cal m.author m.body = .error .noCommandInMessage := by
      simp [parse_command, h]
    refine ⟨hpc, ?_⟩
    simp [process_message, hdel, hpc]
  · intro author body h hmc hmr
    simp [parse_command, h, hmc, hmr]

/-- C5 witness: a body without the trigger, and a trigger-bearing body
matching neither grammar, at concrete inputs. -/
theorem c5_witness :
    (parse_command dateutilParse calEx "Alice" "hello there" =
        .error .noCommandInMessage ∧
      process_message dateutilParse calEx ⟨[], [], dbC2⟩ ⟨"Alice", "hello there"⟩ =
        .ok (⟨[], [], dbC2⟩, false)) ∧
    parse_command dateutilParse calEx "Alice" "!FAUbot frobnicate" =
      .error (.invalidCommand "Alice" "!FAUbot frobnicate") := by
  refine ⟨?_, ?_⟩
  · exact (c5_no_command_and_invalid_command dateutilParse calEx).1
      ⟨[], [], dbC2⟩ ⟨"Alice", "hello there"⟩ (by decide)
  · exact (c5_no_command_and_invalid_command dateutilParse calEx).2
      "Alice" "!FAUbot frobnicate" (by decide) (by decide) (by decide)

/-- C6 (amended): resolution is determined by the parsed datetime, so two raw
strings with equal parses resolve to the same canonical key; in particular
"December 16, 2016" and "Dec 16 2016" parse identically and resolve
identically. -/
theorem c6_resolution_by_parsed_value :
    (∀ (parse : String → Option PyDateTime) (cal : List String) (d1 d2 : String),
      parse d1 = parse d2 →
      resolveDate parse cal d1 = resolveDate parse cal d2) ∧
    resolveDate dateutilParse calEx "December 16, 2016" =
      resolveDate dateutilParse calEx "Dec 16 2016" := by
  constructor
  · intro parse cal d1 d2 h
    simp [resolveDate, h]
  · decide

/-- C6 witness: two strings with equal parses, resolved through the concrete
dateutil table. -/
theorem c6_witness :
    resolveDate dateutilParse calEx "Dec 16 2016 4 p.m." =
      resolveDate dateutilParse calEx "December 16, 2016 4 p.m." :=
  (c6_resolution_by_parsed_value).1 dateutilParse calEx
    "Dec 16 2016 4 p.m." "December 16, 2016 4 p.m." (by decide)

/-- C6 counterexample: "Dec 16 2016 4 p.m." and "December 16, 2016" parse to
the same calendar day (December 16, 2016) but to different datetimes, and
they resolve differently: the first finds the canonical key, the second
resolves to NotFound, because resolution compares full parsed datetimes and
every canonical key carries a non-midnight time. -/
theorem c6_counterexample :
    dateutilParse "Dec 16 2016 4 p.m." = some ⟨2016, 12, 16, 16, 0⟩ ∧
    dateutilParse "December 16, 2016" = some ⟨2016, 12, 16, 0, 0⟩ ∧
    sameCalendarDay ⟨2016, 12, 16, 16, 0⟩ ⟨2016, 12, 16, 0, 0⟩ = true ∧
    resolveDate dateutilParse calEx "Dec 16 2016 4 p.m." =
      some "December 16, 2016 4 p.m." ∧
    resolveDate dateutilParse calEx "December 16, 2016" = none := by
  decide

/-- C8: for a body matching the new-record form, a missing date group fails
with `MissingCeremonyDate` carrying the operation, the amount and the
canonical dates; a date group that dateutil cannot parse, or that matches no
canonical key, fails with `InvalidCeremonyDate` carrying the offending text
and the choices; otherwise the parser returns the tuple with the resolved
canonical date. -/
theorem c8_new_record_error_classification
    (parse : String → Option PyDateTime) (cal : List String)
    (author operation amount : String) :
    (parse_new_command parse cal author operation amount none =
      .error (.missingCeremonyDate (pyLower author) operation amount cal)) ∧
    (∀ s, parse s = none →
      parse_new_command parse cal author operation amount (some s) =
        .error (.invalidCeremonyDate (pyLower author) operation amount s cal)) ∧
    (∀ s dt, parse s = some dt → findCeremonyDate parse cal dt = none →
      parse_new_command parse cal author operation amount (some s) =
        .error (.invalidCeremonyDate (pyLower author) operation amount s cal)) ∧
    (∀ s dt d, parse s = some dt → findCeremonyDate parse cal dt = some d →
      parse_new_command parse cal author operation amount (some s) =
        .ok (.userTuple (pyLower author) operation amount d)) := by
  refine ⟨rfl, ?_, ?_, ?_⟩
  · intro s hs
    simp [parse_new_command, hs]
  · intro s dt hs hf
    simp [parse_new_command, hs, hf]
  · intro s dt d hs hf
    simp [parse_new_command, hs, hf]

/-- C8 witness: the four classification outcomes at concrete inputs. -/
theorem c8_witness :
    parse_new_command dateutilParse calEx "Alice" "sell" "12" none =
      .error (.missingCeremonyDate "alice" "sell" "12" calEx) ∧
    parse_new_command dateutilParse calEx "Alice" "sell" "12" (some "gibberish") =
      .error (.invalidCeremonyDate "alice" "sell" "12" "gibberish" calEx) ∧
    parse_new_command dateutilParse calEx "Alice" "sell" "12" (some "December 16, 2016") =
      .error (.invalidCeremonyDate "alice" "sell" "12" "December 16, 2016" calEx) ∧
    parse_new_command dateutilParse calEx "Alice" "sell" "12" (some "Dec 16 2016 4 p.m.") =
      .ok (.userTuple "alice" "sell" "12" "December 16, 2016 4 p.m.") := by
  have h := c8_new_record_error_classification dateutilParse calEx "Alice" "sell" "12"
  exact ⟨h.1, h.2.1 "gibberish" (by decide),
    h.2.2.1 "December 16, 2016" ⟨2016, 12, 16, 0, 0⟩ (by decide) (by decide),
    h.2.2.2 "Dec 16 2016 4 p.m." ⟨2016, 12, 16, 16, 0⟩ "December 16, 2016 4 p.m."
      (by decide) (by decide)⟩

/-- C2 (evaluation at the failing input): parsing the message body
"!FAUbot resolve 3 /u/jpfau" does not produce a ResolveTuple — the missing
date group reaches `parse(None)` inside `_parse_resolve_command`, whose only
handler catches StopIteration, so the AttributeError escapes — while the
resolve effect itself, applied to a well-formed tuple with amount 3, does
decrement both parties' amounts by 3 (alice 5 to 2, jpfau 4 to 1). -/
theorem c2_resolve_without_date_crashes :
    parse_command dateutilParse calEx "alice" "!FAUbot resolve 3 /u/jpfau" =
      .error (.uncaughtException "AttributeError: dateutil parse called on None") ∧
    resolve_user dbC2 "Alice" "jpfau" "3" "December 16, 2016 4 p.m." =
      some [{ user_name := "alice", ceremony_date := "December 16, 2016 4 p.m.",
              operation := "buy", amount := 2 },
            { user_name := "jpfau", ceremony_date := "December 16, 2016 4 p.m.",
              operation := "sell", amount := 1 }] := by
  decide

/-- C3 counterexample: a resolve command with no amount is a parse error
(InvalidCommand), not a successful full-balance resolve; and a matched
resolve command does go through a ceremony-date resolution step — the tuple
carries the canonical key "December 16, 2016 4 p.m.", not the raw text
"Dec 16 2016 4 p.m." it was given. -/
theorem c3_counterexample :
    parse_command dateutilParse calEx "alice" "!FAUbot resolve /u/jpfau" =
      .error (.invalidCommand "alice" "!FAUbot resolve /u/jpfau") ∧
    parse_command dateutilParse calEx "alice"
        "!FAUbot resolve 3 jpfau Dec 16 2016 4 p.m." =
      .ok (.resolveTuple "alice" "jpfau" "3" "December 16, 2016 4 p.m.") := by
  decide

/-- C3 (amended): the resolve grammar requires a 1-2 digit amount (every
matched resolve body captures a non-empty all-digit amount), and a
successfully parsed resolve command has had its trailing date segment
resolved against the ceremony calendar: the tuple's date is a canonical key
whose parse equals the parse of the raw date text. -/
theorem c3_resolve_amount_required_and_date_resolved :
    (∀ (body amt un : String) (od : Option String),
      matchResolve body = some (amt, un, od) →
      amt.data ≠ [] ∧ amt.data.all pyDigit = true) ∧
    (∀ (parse : String → Option PyDateTime) (cal : List String)
      (author amount uname : String) (odate : Option String) (u w a d : String),
      parse_resolve_command parse cal author amount uname odate =
        .ok (.resolveTuple u w a d) →
      d ∈ cal ∧ ∃ raw, odate = some raw ∧ parse d = parse raw) := by
  constructor
  · intro body amt un od h
    have hs := amount_shape_digits (matchResolve_amount h)
    exact ⟨hs.1, hs.2.1⟩
  · intro parse cal author amount uname odate u w a d h
    unfold parse_resolve_command at h
    split at h
    · exact absurd h (by simp)
    · split at h
      · exact absurd h (by simp)
      · next s =>
        split at h
        · exact absurd h (by simp)
        · next dt hps =>
          split at h
          · exact absurd h (by simp)
          · next d' hfd =>
            have hinj := Except.ok.inj h
            have hd : d' = d := by
              cases hinj
              rfl
            subst hd
            have hmem := List.mem_of_find?_eq_some hfd
            have hpd : parse d' = some dt := by
              have := List.find?_some hfd
              simpa [decide_eq_true_eq] using this
            exact ⟨hmem, s, rfl, by rw [hpd, hps]⟩

/-- C3 witness: the amount group of "!FAUbot resolve 3 /u/jpfau" is the
digit string "3", and the successful parse of a resolve command carrying the
raw date "Dec 16 2016 4 p.m." has resolved it to a calendar key with an
equal parse. -/
theorem c3_witness :
    ("3".data ≠ [] ∧ "3".data.all pyDigit = true) ∧
    ("December 16, 2016 4 p.m." ∈ calEx ∧
      ∃ raw, (some "Dec 16 2016 4 p.m." : Option String) = some raw ∧
        dateutilParse "December 16, 2016 4 p.m." = dateutilParse raw) := by
  refine ⟨?_, ?_⟩
  · exact c3_resolve_amount_required_and_date_resolved.1
      "!FAUbot resolve 3 /u/jpfau" "3" "jpfau" none (by decide)
  · exact c3_resolve_amount_required_and_date_resolved.2
      dateutilParse calEx "alice" "3" "jpfau" (some "Dec 16 2016 4 p.m.")
      "alice" "jpfau" "3" "December 16, 2016 4 p.m." (by decide)

/-- C9 counterexample: the message body "!FAUbot buy 0 Dec 16 2016 4 p.m."
parses successfully with amount "0" — an amount outside the range 1-99 — and
the parser carries the digit text, not an integer. -/
theorem c9_counterexample :
    parse_command dateutilParse calEx "alice" "!FAUbot buy 0 Dec 16 2016 4 p.m." =
      .ok (.userTuple "alice" "buy" "0" "December 16, 2016 4 p.m.") ∧
    digitsToNat "0" = 0 ∧ ¬ 1 ≤ digitsToNat "0" := by
  decide

/-- C9 (amended): the two-digit grammar bounds every successfully captured
amount — for both the new-record and the resolve pattern the amount group is
a non-empty string of at most two digits, so its integer value is at most 99
(zero included); the captured value is the digit text, converted with int()
only where it is applied. -/
theorem c9_amount_grammar :
    (∀ (body op amt : String) (od : Option String),
      matchCommand body = some (op, amt, od) →
      amt.data ≠ [] ∧ amt.data.all pyDigit = true ∧ digitsToNat amt ≤ 99) ∧
    (∀ (body amt un : String) (od : Option String),
      matchResolve body = some (amt, un, od) →
      amt.data ≠ [] ∧ amt.data.all pyDigit = true ∧ digitsToNat amt ≤ 99) := by
  constructor
  · intro body op amt od h
    exact amount_shape_digits (matchCommand_amount h)
  · intro body amt un od h
    exact amount_shape_digits (matchResolve_amount h)

/-- C9 witness: the amount groups captured from two concrete bodies are
bounded by 99. -/
theorem c9_witness :
    ("0".data ≠ [] ∧ "0".data.all pyDigit = true ∧ digitsToNat "0" ≤ 99) ∧
    ("12".data ≠ [] ∧ "12".data.all pyDigit = true ∧ digitsToNat "12" ≤ 99) := by
  refine ⟨?_, ?_⟩
  · exact c9_amount_grammar.1 "!FAUbot buy 0 Dec 16 2016 4 p.m." "buy" "0"
      (some "Dec 16 2016 4 p.m.") (by decide)
  · exact c9_amount_grammar.2 "!FAUbot resolve 12 /u/jpfau" "12" "jpfau" none
      (by decide)


/-- C1 counterexample: the flush the work cycle calls
(`_batch_write_new_db_records_new`) does not apply deletes before adds.  With
one add and one pending delete it inserts the add first and then crashes in
the delete pass (the queued delete key has no `_id` field), so after an
add-then-delete cycle for bob's key the record is present, not absent; and
even the DynamoDB batch-writer flush leaves a key present whenever an add for
it is pending, because deletes are always submitted before adds regardless of
enqueue order. -/
theorem c1_counterexample :
    batch_write_new_db_records_new ⟨[bobItem], [⟨"bob"⟩], []⟩ =
      .error ("KeyError: _id", ⟨[], [], [bobItem]⟩) ∧
    batch_write_new_db_records [] [("bob", "December 16, 2016 4 p.m.")] [bobItem] =
      [bobItem] := by
  decide

/-- C1 (amended): the batch-writer flush `_batch_write_new_db_records`
submits all pending deletes before all pending adds, so a key with a pending
add ends present whatever deletes are pending (delete-then-add and
add-then-delete both leave it present), and a key with pending deletes and no
pending add ends absent; the flush the work cycle actually calls
(`_batch_write_new_db_records_new`) instead applies the adds first and its
delete pass raises KeyError on the first queued key, leaving every delete
unapplied. -/
theorem c1_flush_semantics :
    (∀ (tbl : List UserRecord) (delQ : List (String × String))
      (addQ : List UserRecord) (r0 : UserRecord), r0 ∈ addQ →
      ∃ r ∈ batch_write_new_db_records tbl delQ addQ,
        r.user_name = r0.user_name ∧ r.ceremony_date = r0.ceremony_date) ∧
    (∀ (tbl : List UserRecord) (delQ : List (String × String))
      (addQ : List UserRecord) (k : String × String), k ∈ delQ →
      (∀ a ∈ addQ, ¬(a.user_name = k.1 ∧ a.ceremony_date = k.2)) →
      ∀ r ∈ batch_write_new_db_records tbl delQ addQ,
        ¬(r.user_name = k.1 ∧ r.ceremony_date = k.2)) ∧
    (∀ st : BotState, st.addQueue ≠ [] → st.deleteQueue ≠ [] →
      batch_write_new_db_records_new st =
        .error ("KeyError: _id",
          { addQueue := [], deleteQueue := st.deleteQueue.tail,
            db := st.db ++ st.addQueue })) := by
  refine ⟨?_, ?_, ?_⟩
  · intro tbl delQ addQ r0 h0
    have hne : addQ.isEmpty = false := by
      cases addQ with
      | nil => cases h0
      | cons a as => rfl
    unfold batch_write_new_db_records
    rw [hne, Bool.and_false, if_neg (by simp)]
    exact puts_establish_key addQ (delQ.foldl dyn_delete tbl) r0 h0
  · intro tbl delQ addQ k hk hnoadd r hr
    have hne : delQ.isEmpty = false := by
      cases delQ with
      | nil => cases hk
      | cons a as => rfl
    unfold batch_write_new_db_records at hr
    rw [hne, Bool.false_and, if_neg (by simp)] at hr
    exact puts_preserve_absent addQ (delQ.foldl dyn_delete tbl) k hnoadd
      (deletes_remove_key delQ tbl k hk) r hr
  · intro st ha hd
    obtain ⟨aq, dq, db⟩ := st
    cases aq with
    | nil => exact absurd rfl ha
    | cons a as =>
      cases dq with
      | nil => exact absurd rfl hd
      | cons d ds =>
        rfl

/-- C1 witness: the three parts of the flush-semantics theorem at concrete
queues. -/
theorem c1_witness :
    (∃ r ∈ batch_write_new_db_records [] [("x", "d")] [bobItem],
      r.user_name = bobItem.user_name ∧ r.ceremony_date = bobItem.ceremony_date) ∧
    (∀ r ∈ batch_write_new_db_records bobDb
        [("bob", "December 16, 2016 4 p.m.")] [],
      ¬(r.user_name = "bob" ∧ r.ceremony_date = "December 16, 2016 4 p.m.")) ∧
    batch_write_new_db_records_new ⟨[bobItem], [⟨"alice"⟩, ⟨"bob"⟩], bobDb⟩ =
      .error ("KeyError: _id", ⟨[], [⟨"bob"⟩], bobDb ++ [bobItem]⟩) := by
  refine ⟨?_, ?_, ?_⟩
  · exact c1_flush_semantics.1 [] [("x", "d")] [bobItem] bobItem (by decide)
  · exact c1_flush_semantics.2.1 bobDb [("bob", "December 16, 2016 4 p.m.")] []
      ("bob", "December 16, 2016 4 p.m.") (by decide) (by simp)
  · exact c1_flush_semantics.2.2 ⟨[bobItem], [⟨"alice"⟩, ⟨"bob"⟩], bobDb⟩
      (by decide) (by decide)

/-- C4 (evaluation at the failing input): a cycle whose only message is
"!FAUbot delete me" from bob — who holds records for two ceremony dates —
queues the delete key and then crashes during the flush: the drained add
queue is empty, so insert_many raises InvalidOperation, and even reaching the
delete pass would raise KeyError because the queued key \x7b'user_name':
'bob'\x7d has no `_id` field.  Both of bob's records remain in the store. -/
theorem c4_delete_cycle_crash :
    parse_commands_from_inbox dateutilParse calEx ⟨[], [], bobDb⟩
        [⟨"Bob", "!FAUbot delete me"⟩] =
      .error ("InvalidOperation: documents must be a non-empty list",
        ⟨[], [⟨"bob"⟩], bobDb⟩) ∧
    batch_delete_users ⟨[], [⟨"bob"⟩], bobDb⟩ =
      .error ("KeyError: _id", ⟨[], [], bobDb⟩) := by
  decide


theorem pos_of_mem_pool {db : List UserRecord} {date op : String}
    {r : UserRecord} (h : r ∈ get_users_by_date_and_operation_new db date op) :
    0 < r.amount := by
  have := (List.mem_filter.1 h).2
  simpa using this

theorem pools_pos {db : List UserRecord} {c : String} {hours now : Nat}
    {r : UserRecord}
    (h : r ∈ (get_users_by_date_and_operations_new db c hours now).1 ∨
      r ∈ (get_users_by_date_and_operations_new db c hours now).2) :
    0 < r.amount := by
  unfold get_users_by_date_and_operations_new at h
  by_cases hh : 0 < hours
  · rw [if_pos hh] at h
    rcases h with h | h
    · exact pos_of_mem_pool (List.mem_filter.1 h).1
    · exact pos_of_mem_pool (List.mem_filter.1 h).1
  · rw [if_neg hh] at h
    rcases h with h | h
    · exact pos_of_mem_pool h
    · exact pos_of_mem_pool h

/-- C7: no record with amount 0 (or negative) ever appears in a counter-party
list produced by the matching run: every record in any sent notification's
counter-party list has a positive amount. -/
theorem c7_no_zero_amount_counterparties (db : List UserRecord)
    (cal : List String) (hours now : Nat) :
    ∀ m ∈ (match_ticket_users db cal hours now).1,
      ∀ r ∈ m.counterparties, 0 < r.amount := by
  intro m hm r hr
  have hm' : m ∈ match_notifications (get_users_for_notification_new db cal hours now) := hm
  unfold match_notifications at hm'
  rw [List.mem_flatten] at hm'
  obtain ⟨l, hl, hml⟩ := hm'
  rcases List.mem_map.1 hl with ⟨e, he, rfl⟩
  have he' := (List.mem_filter.1 (by
    unfold get_users_for_notification_new at he
    exact he)).1
  rcases List.mem_map.1 he' with ⟨c, _, rfl⟩
  rcases List.mem_append.1 hml with hside | hside
  · unfold notify_buyers_sellers at hside
    rcases List.mem_map.1 hside with ⟨p, hp, rfl⟩
    rcases List.mem_map.1 (pyDict_subset hp) with ⟨b, _, hpe⟩
    have hcp : r ∈ sortByAmount (get_users_by_date_and_operations_new db c hours now).2 := by
      have h2 : p.2 = sortByAmount (get_users_by_date_and_operations_new db c hours now).2 := by
        rw [← hpe]
      exact h2 ▸ hr
    exact pools_pos (Or.inr (mem_sortByAmount.1 hcp))
  · unfold notify_buyers_sellers at hside
    rcases List.mem_map.1 hside with ⟨p, hp, rfl⟩
    rcases List.mem_map.1 (pyDict_subset hp) with ⟨b, _, hpe⟩
    have hcp : r ∈ sortByAmount (get_users_by_date_and_operations_new db c hours now).1 := by
      have h2 : p.2 = sortByAmount (get_users_by_date_and_operations_new db c hours now).1 := by
        rw [← hpe]
      exact h2 ▸ hr
    exact pools_pos (Or.inl (mem_sortByAmount.1 hcp))

/-- C7 witness: in the concrete store the seller with zero tickets never
appears; the counter-party delivered to b1 has a positive amount. -/
theorem c7_witness : (0 : Int) < 3 := by
  exact c7_no_zero_amount_counterparties dbM calEx 0 0
    ⟨"b1", [{ user_name := "s1", ceremony_date := "December 16, 2016 4 p.m.",
              operation := "sell", amount := 3 }]⟩ (by decide)
    { user_name := "s1", ceremony_date := "December 16, 2016 4 p.m.",
      operation := "sell", amount := 3 } (by decide)

/-- C10: for every date kept by the notification query, if one side's pool is
empty, every user on the other side is still sent a notification whose
counter-party list is empty, and a last_notified stamp is issued for every
user of the date's pools. -/
theorem c10_one_sided_notifications (db : List UserRecord) (cal : List String)
    (hours now : Nat) :
    ∀ (date : String) (buyers sellers : List UserRecord),
      (date, buyers, sellers) ∈ get_users_for_notification_new db cal hours now →
      (sellers = [] → ∀ b ∈ buyers,
        (⟨b.user_name, []⟩ : SentMessage) ∈ (match_ticket_users db cal hours now).1) ∧
      (buyers = [] → ∀ s ∈ sellers,
        (⟨s.user_name, []⟩ : SentMessage) ∈ (match_ticket_users db cal hours now).1) ∧
      (∀ u ∈ buyers ++ sellers,
        (u.user_name, date, now) ∈ (match_ticket_users db cal hours now).2) := by
  intro date buyers sellers he
  refine ⟨?_, ?_, ?_⟩
  · rintro rfl b hb
    show _ ∈ match_notifications (get_users_for_notification_new db cal hours now)
    unfold match_notifications
    rw [List.mem_flatten]
    refine ⟨_, List.mem_map.2 ⟨(date, buyers, []), he, rfl⟩, ?_⟩
    refine List.mem_append.2 (Or.inl ?_)
    unfold notify_buyers_sellers
    refine List.mem_map.2 ⟨(b.user_name, []), ?_, rfl⟩
    have hmem : (b.user_name, sortByAmount ([] : List UserRecord)) ∈
        buyers.map (fun b2 => (b2.user_name, sortByAmount ([] : List UserRecord))) :=
      List.mem_map.2 ⟨b, hb, rfl⟩
    have hkey := key_mem_pyDict _ [] _ hmem
    rcases hkey with ⟨v2, hv2⟩
    have hv2l := pyDict_subset hv2
    rcases List.mem_map.1 hv2l with ⟨b3, _, hb3⟩
    have hveq : v2 = [] := by
      have := (Prod.ext_iff.1 hb3).2
      simpa [sortByAmount] using this.symm
    rw [hveq] at hv2
    exact hv2
  · rintro rfl s hs
    show _ ∈ match_notifications (get_users_for_notification_new db cal hours now)
    unfold match_notifications
    rw [List.mem_flatten]
    refine ⟨_, List.mem_map.2 ⟨(date, [], sellers), he, rfl⟩, ?_⟩
    refine List.mem_append.2 (Or.inr ?_)
    unfold notify_buyers_sellers
    refine List.mem_map.2 ⟨(s.user_name, []), ?_, rfl⟩
    have hmem : (s.user_name, sortByAmount ([] : List UserRecord)) ∈
        sellers.map (fun s2 => (s2.user_name, sortByAmount ([] : List UserRecord))) :=
      List.mem_map.2 ⟨s, hs, rfl⟩
    have hkey := key_mem_pyDict _ [] _ hmem
    rcases hkey with ⟨v2, hv2⟩
    have hv2l := pyDict_subset hv2
    rcases List.mem_map.1 hv2l with ⟨s3, _, hs3⟩
    have hveq : v2 = [] := by
      have := (Prod.ext_iff.1 hs3).2
      simpa [sortByAmount] using this.symm
    rw [hveq] at hv2
    exact hv2
  · intro u hu
    show _ ∈ set_users_notified (get_users_for_notification_new db cal hours now) now
    unfold set_users_notified
    rw [List.mem_flatten]
    exact ⟨_, List.mem_map.2 ⟨(date, buyers, sellers), he, rfl⟩,
      List.mem_map.2 ⟨u, hu, rfl⟩⟩

/-- C10 witness: with a single buyer and no sellers, the buyer receives a
notification with an empty counter-party list and is stamped. -/
theorem c10_witness :
    (⟨"b1", []⟩ : SentMessage) ∈ (match_ticket_users dbOneSided calEx 0 0).1 ∧
    ("b1", "December 16, 2016 4 p.m.", 0) ∈ (match_ticket_users dbOneSided calEx 0 0).2 := by
  have h := c10_one_sided_notifications dbOneSided calEx 0 0
    "December 16, 2016 4 p.m." [b1Rec] [] (by decide)
  exact ⟨h.1 rfl b1Rec (by decide), h.2.2 b1Rec (by decide)⟩

end FAUbot
